import Mathlib

/-!
The poll loop of `cmd/server.go` (prometheus-pingdom-exporter)

A shallow embedding of the goroutine started by `serverRun` that fetches the
Pingdom checks and publishes them to the Prometheus collectors declared at
the top of `cmd/server.go`.

Modelling conventions.

* Go `int` / `int64` fields are `Int`.  Every statement below is proved for all
  integers, hence also for the 64-bit range.
* The `float64` values the loop hands to the collectors are all integer-valued:
  `status` and `up_down` are small integer constants and
  `float64(check.LastResponseTime)` converts an `int64`.  A `float64` is
  represented by the integer it denotes; the comparison `status < 1` is the
  integer comparison, and the conversion `float64(...)` rounds to 53 significant
  bits, to nearest and ties to even, as the Go conversion does.
* A `GaugeVec` is a map from label values to the last value set (absent when the
  child was never created); a `HistogramVec` is a map from label values to the
  sequence of observations made so far, oldest first.
* The result of `client.Checks.List` is the pair `(checks, err)` the Go call
  returns.
-/

namespace cmd

/-! ## The records returned by the Pingdom client -/

/-- The `pingdom.CheckResponseTag` fields the loop reads. -/
structure CheckResponseTag where
  Name : String
  deriving DecidableEq, Repr

/-- The `pingdom.CheckResponse` fields the loop reads. -/
structure CheckResponse where
  ID : Int
  Name : String
  Hostname : String
  Resolution : Int
  Paused : Bool
  Status : String
  LastResponseTime : Int
  Tags : List CheckResponseTag
  deriving DecidableEq, Repr

/-! ## Library functions used by the loop -/

/-- The decimal digit character of `d`, that is `'0' + d`. -/
def digit (d : Nat) : Char := Char.ofNat (48 + d)

/-- The digit loop of `strconv.formatBits` in base 10: the digits of `u` are
written right to left in front of `acc`, last digit first, until the remaining
value is below 10.  The first argument bounds the number of iterations. -/
def formatBits : Nat → Nat → List Char → List Char
  | 0, _, acc => acc
  | fuel + 1, u, acc =>
    if u < 10 then digit u :: acc
    else formatBits fuel (u / 10) (digit (u % 10) :: acc)

/-- The decimal rendering of an unsigned value (`u + 1` iterations always
suffice, see `parseDigits_formatUint`). -/
def formatUint (u : Nat) : List Char := formatBits (u + 1) u []

/-- The Go function `strconv.Itoa`: the decimal rendering of an integer, with a
leading `-` for a negative one. -/
def Itoa (i : Int) : String :=
  if i < 0 then String.mk ('-' :: formatUint (-i).toNat)
  else String.mk (formatUint i.toNat)

/-- The number of low bits that do not fit into the 53-bit significand of a
`float64`: the least `e` with `n / 2 ^ e < 2 ^ 53`.  The first argument bounds
the number of halvings. -/
def dropBits : Nat → Nat → Nat
  | 0, _ => 0
  | fuel + 1, n => if n < 2 ^ 53 then 0 else dropBits fuel (n / 2) + 1

/-- The magnitude `n` rounded to 53 significant bits, to nearest and ties to
even. -/
def roundNearestEven (n : Nat) : Nat :=
  let e := dropBits n n
  let q := n / 2 ^ e
  let r := n % 2 ^ e
  if 2 * r < 2 ^ e then q * 2 ^ e
  else if 2 * r = 2 ^ e ∧ q % 2 = 0 then q * 2 ^ e
  else (q + 1) * 2 ^ e

/-- The Go conversion `float64(i)` of an integer: the value of the nearest
`float64`, which is again an integer. -/
def float64 (i : Int) : Int :=
  if i < 0 then -((roundNearestEven (-i).toNat : Nat) : Int)
  else ((roundNearestEven i.toNat : Nat) : Int)

/-- The Go function `strconv.FormatBool`. -/
def FormatBool (b : Bool) : String := if b then "true" else "false"

/-- The separator loop of `strings.Join` for two or more elements: after the
first element, every further element is written behind one separator. -/
def joinRest (sep : String) : String → List String → String
  | b, [] => b
  | b, s :: rest => joinRest sep (b ++ sep ++ s) rest

/-- The Go function `strings.Join`. -/
def Join (elems : List String) (sep : String) : String :=
  match elems with
  | [] => ""
  | [e] => e
  | e :: rest => joinRest sep e rest

/-! ## The values computed for one check (body of the `range checks` loop) -/

/-- The variable `id`. -/
def id (check : CheckResponse) : String := Itoa check.ID

/-- The variable `status`, assigned by the `switch check.Status`. -/
def status (check : CheckResponse) : Int :=
  if check.Status = "unknown" then -2
  else if check.Status = "paused" then -1
  else if check.Status = "up" then 0
  else if check.Status = "unconfirmed_down" then 1
  else if check.Status = "down" then 2
  else 100

/-- The variable `up_down`. -/
def up_down (check : CheckResponse) : Int :=
  if status check < 1 then 1 else 0

/-- The variable `resolution`. -/
def resolution (check : CheckResponse) : String := Itoa check.Resolution

/-- The variable `paused`: the formatted flag, replaced by `"true"` when the
status is `"paused"`. -/
def paused (check : CheckResponse) : String :=
  let paused := FormatBool check.Paused
  if check.Status = "paused" then "true" else paused

/-- The variable `tagsRaw` after the `range check.Tags` loop of appends. -/
def tagsRaw (check : CheckResponse) : List String :=
  check.Tags.foldl (fun acc tag => acc ++ [tag.Name]) []

/-- The variable `tags`. -/
def tags (check : CheckResponse) : String := Join (tagsRaw check) ","

/-- The six label values, in the order of the label names
`id, name, hostname, resolution, paused, tags` shared by the four vectors. -/
structure LabelValues where
  id : String
  name : String
  hostname : String
  resolution : String
  paused : String
  tags : String
  deriving DecidableEq, Repr

/-- The arguments of each of the four `WithLabelValues` calls. -/
def labelValues (check : CheckResponse) : LabelValues :=
  { id := id check
    name := check.Name
    hostname := check.Hostname
    resolution := resolution check
    paused := paused check
    tags := tags check }

/-! ## The collectors -/

/-- A gauge vector: the value last set under each label tuple. -/
abbrev GaugeVec := LabelValues → Option Int

/-- A histogram vector: the observations made under each label tuple. -/
abbrev HistogramVec := LabelValues → List Int

/-- The call `vec.WithLabelValues(lvs...).Set(v)`. -/
def GaugeVec.Set (vec : GaugeVec) (lvs : LabelValues) (v : Int) : GaugeVec :=
  fun l => if l = lvs then some v else vec l

/-- The call `vec.WithLabelValues(lvs...).Observe(v)`. -/
def HistogramVec.Observe (vec : HistogramVec) (lvs : LabelValues) (v : Int) :
    HistogramVec :=
  fun l => if l = lvs then vec l ++ [v] else vec l

/-- The five collectors registered in `init`. -/
structure Store where
  pingdomUp : Int
  pingdomCheckStatus : GaugeVec
  pingdomCheckResponseTime : GaugeVec
  pingdomCheckResponseTimeHistogram : HistogramVec
  pingdomCheckStatusHistogram : HistogramVec

/-- The collectors right after registration: the gauge is 0 and no vector has
a child. -/
def Store.init : Store :=
  { pingdomUp := 0
    pingdomCheckStatus := fun _ => none
    pingdomCheckResponseTime := fun _ => none
    pingdomCheckResponseTimeHistogram := fun _ => []
    pingdomCheckStatusHistogram := fun _ => [] }

/-! ## The poll loop -/

/-- The two results of `client.Checks.List(params)`; `err = none` is Go's
`err == nil`. -/
structure ListResult where
  checks : List CheckResponse
  err : Option String

/-- One iteration of `for _, check := range checks`. -/
def publishCheck (s : Store) (check : CheckResponse) : Store :=
  { s with
    pingdomCheckStatus :=
      s.pingdomCheckStatus.Set (labelValues check) (status check)
    pingdomCheckResponseTime :=
      s.pingdomCheckResponseTime.Set (labelValues check)
        (float64 check.LastResponseTime)
    pingdomCheckResponseTimeHistogram :=
      s.pingdomCheckResponseTimeHistogram.Observe (labelValues check)
        (float64 check.LastResponseTime)
    pingdomCheckStatusHistogram :=
      s.pingdomCheckStatusHistogram.Observe (labelValues check) (up_down check) }

/-- One iteration of the outer `for` of the polling goroutine, given what
`client.Checks.List` returned in it. -/
def pollCycle (s : Store) (r : ListResult) : Store :=
  match r.err with
  | some _ => { s with pingdomUp := 0 }
  | none => r.checks.foldl publishCheck { s with pingdomUp := 1 }

/-- Finitely many consecutive iterations of the polling goroutine. -/
def pollCycles (s : Store) (rs : List ListResult) : Store :=
  rs.foldl pollCycle s

/-! ## Reference definitions following the wording of the specification -/

/-- The tag label as the specification words it: the names in their order with
one `,` between consecutive names and nothing else. -/
def commaSeparated : List String → String
  | [] => ""
  | [a] => a
  | a :: b :: rest => a ++ "," ++ commaSeparated (b :: rest)

/-- The value of a digit string read as a decimal number. -/
def parseDigits (cs : List Char) : Nat :=
  cs.foldl (fun a c => 10 * a + (c.toNat - 48)) 0

/-- The integer a rendering denotes: a leading `-` negates the digits behind
it. -/
def parseInt (cs : List Char) : Int :=
  match cs with
  | '-' :: rest => -((parseDigits rest : Nat) : Int)
  | _ => ((parseDigits cs : Nat) : Int)

/-- The label tuple of a record as the specification words it: the id as a
decimal string, the name, the hostname, the resolution as a decimal string, the
paused label ("true" for the status "paused" or a set flag, "false" otherwise)
and the tag names joined by commas. -/
def labelTuple (c : CheckResponse) : LabelValues :=
  { id := Int.repr c.ID
    name := c.Name
    hostname := c.Hostname
    resolution := Int.repr c.Resolution
    paused :=
      if c.Status = "paused" then "true"
      else if c.Paused = true then "true" else "false"
    tags := commaSeparated (c.Tags.map (fun tag => tag.Name)) }

/-- The last record of the list whose label tuple is `L`, if there is one. -/
def lastWith (L : LabelValues) (checks : List CheckResponse) : Option CheckResponse :=
  checks.reverse.find? (fun c => decide (labelTuple c = L))

/-- The records of the list whose label tuple is `L`, in their order. -/
def recordsWith (L : LabelValues) (checks : List CheckResponse) : List CheckResponse :=
  checks.filter (fun c => decide (labelTuple c = L))

/-- The check of the end-to-end example. -/
def check42 : CheckResponse :=
  { ID := 42, Name := "site", Hostname := "x.com", Resolution := 5,
    Paused := false, Status := "down", LastResponseTime := 733,
    Tags := [⟨"prod"⟩] }

/-- The label tuple of the end-to-end example. -/
def labels42 : LabelValues :=
  { id := "42", name := "site", hostname := "x.com", resolution := "5",
    paused := "false", tags := "prod" }

/-- The check of the end-to-end example with a last response time of
`2 ^ 53 + 1` milliseconds. -/
def checkSlow : CheckResponse := { check42 with LastResponseTime := 9007199254740993 }

/-- The check of the end-to-end example with the largest `int64` as last
response time. -/
def checkSlowest : CheckResponse := { check42 with LastResponseTime := 9223372036854775807 }

/-- A second check, with another id and otherwise the labels of `check42`. -/
def check7 : CheckResponse := { check42 with ID := 7, Status := "up", LastResponseTime := 120 }

/-- Three consecutive fetch results: a success, a failure, a success with no
checks. -/
def threeFetches : List ListResult :=
  [⟨[check42], none⟩, ⟨[], some "timeout"⟩, ⟨[], none⟩]

/-- Two consecutive fetch results, the last one a failure. -/
def failingLast : List ListResult :=
  [⟨[check42], none⟩, ⟨[], some "timeout"⟩]

/-! ## Lemmas on the library functions -/

theorem digit_toNat (d : Nat) (h : d < 10) : (digit d).toNat - 48 = d := by
  interval_cases d <;> rfl

theorem digit_ne_minus (d : Nat) (h : d < 10) : digit d ≠ '-' := by
  interval_cases d <;> decide

theorem parseDigits_snoc (cs : List Char) (c : Char) :
    parseDigits (cs ++ [c]) = 10 * parseDigits cs + (c.toNat - 48) := by
  simp [parseDigits, List.foldl_append]

theorem formatBits_acc (fuel : Nat) :
    ∀ (u : Nat) (acc : List Char), formatBits fuel u acc = formatBits fuel u [] ++ acc := by
  induction fuel with
  | zero => intro u acc; simp [formatBits]
  | succ fuel ih =>
    intro u acc
    by_cases hu : u < 10
    · simp [formatBits, hu]
    · simp only [formatBits, hu, if_false]
      rw [ih (u / 10) (digit (u % 10) :: acc), ih (u / 10) [digit (u % 10)]]
      simp

theorem parseDigits_formatBits (fuel : Nat) :
    ∀ u : Nat, u < fuel → parseDigits (formatBits fuel u []) = u := by
  induction fuel with
  | zero => intro u hu; omega
  | succ fuel ih =>
    intro u hu
    by_cases h10 : u < 10
    · simp [formatBits, h10, parseDigits, digit_toNat u h10]
    · simp only [formatBits, h10, if_false]
      rw [formatBits_acc, parseDigits_snoc, ih (u / 10) (by omega),
        digit_toNat (u % 10) (by omega)]
      omega

theorem parseDigits_formatUint (u : Nat) : parseDigits (formatUint u) = u :=
  parseDigits_formatBits (u + 1) u (Nat.lt_succ_self u)

theorem minus_mem_formatBits (fuel : Nat) :
    ∀ (u : Nat) (acc : List Char), '-' ∈ formatBits fuel u acc → '-' ∈ acc := by
  induction fuel with
  | zero => intro u acc h; simpa [formatBits] using h
  | succ fuel ih =>
    intro u acc h
    by_cases h10 : u < 10
    · simp only [formatBits, h10, if_true, List.mem_cons] at h
      rcases h with h | h
      · exact absurd h.symm (digit_ne_minus u h10)
      · exact h
    · simp only [formatBits, h10, if_false] at h
      have h2 := ih _ _ h
      simp only [List.mem_cons] at h2
      rcases h2 with h2 | h2
      · exact absurd h2.symm (digit_ne_minus (u % 10) (by omega))
      · exact h2

theorem parseInt_formatUint (u : Nat) : parseInt (formatUint u) = (u : Int) := by
  have hr := parseDigits_formatUint u
  have hm : '-' ∉ formatUint u := fun h => by
    have := minus_mem_formatBits _ _ _ h
    simp at this
  cases hcs : formatUint u with
  | nil => rw [hcs] at hr; simp [parseInt]; simpa [parseDigits] using hr
  | cons c rest =>
    rw [hcs] at hr hm
    have hc : c ≠ '-' := fun h => hm (by simp [h])
    simp [parseInt, hc, hr]

theorem parseInt_Itoa (i : Int) : parseInt (Itoa i).data = i := by
  unfold Itoa
  by_cases hi : i < 0
  · simp only [hi, if_true, parseInt, parseDigits_formatUint]
    simp
    omega
  · simp only [hi, if_false, parseInt_formatUint]
    omega

theorem Itoa_injective : Function.Injective Itoa := by
  intro a b h
  have := congrArg (fun s => parseInt s.data) h
  simpa [parseInt_Itoa] using this

theorem joinRest_eq (sep : String) :
    ∀ (rest : List String) (b e : String),
      joinRest sep (b ++ e) rest = b ++ joinRest sep e rest := by
  intro rest
  induction rest with
  | nil => intro b e; rfl
  | cons s rest ih =>
    intro b e
    simp only [joinRest]
    rw [← ih b (e ++ sep ++ s)]
    simp [String.append_assoc]

theorem joinRest_eq_commaSeparated :
    ∀ (rest : List String) (e : String), joinRest "," e rest = commaSeparated (e :: rest) := by
  intro rest
  induction rest with
  | nil => intro e; rfl
  | cons s rest ih =>
    intro e
    simp only [joinRest, commaSeparated]
    rw [joinRest_eq, ih]

theorem Join_eq_commaSeparated (elems : List String) :
    Join elems "," = commaSeparated elems := by
  match elems with
  | [] => rfl
  | [_] => rfl
  | a :: b :: rest => exact joinRest_eq_commaSeparated (b :: rest) a

theorem tagsRaw_eq (check : CheckResponse) :
    tagsRaw check = check.Tags.map (fun tag => tag.Name) := by
  unfold tagsRaw
  suffices h : ∀ (ts : List CheckResponseTag) (acc : List String),
      ts.foldl (fun acc tag => acc ++ [tag.Name]) acc = acc ++ ts.map (fun tag => tag.Name) by
    simpa using h check.Tags []
  intro ts
  induction ts with
  | nil => intro acc; simp
  | cons t ts ih => intro acc; simp [ih]

theorem digit_eq_digitChar (d : Nat) (h : d < 10) : digit d = Nat.digitChar d := by
  interval_cases d <;> rfl

theorem formatBits_eq_toDigitsCore (fuel : Nat) :
    ∀ (u : Nat) (acc : List Char), formatBits fuel u acc = Nat.toDigitsCore 10 fuel u acc := by
  induction fuel with
  | zero => intro u acc; rfl
  | succ fuel ih =>
    intro u acc
    by_cases hu : u < 10
    · have h0 : u / 10 = 0 := by omega
      have hm : u % 10 = u := by omega
      simp [formatBits, Nat.toDigitsCore, hu, h0, hm, digit_eq_digitChar u hu]
    · have h0 : ¬ u / 10 = 0 := by omega
      simp only [formatBits, Nat.toDigitsCore, hu, h0, if_false]
      rw [ih, digit_eq_digitChar (u % 10) (by omega)]

theorem formatUint_eq_toDigits (u : Nat) : formatUint u = Nat.toDigits 10 u :=
  formatBits_eq_toDigitsCore (u + 1) u []

theorem Itoa_eq_repr (i : Int) : Itoa i = Int.repr i := by
  cases i with
  | ofNat m =>
    have h : ¬ Int.ofNat m < 0 := by simp
    simp only [Itoa, h, if_false, Int.repr, Nat.repr, List.asString, formatUint_eq_toDigits]
    rfl
  | negSucc m =>
    have h : Int.negSucc m < 0 := Int.negSucc_lt_zero m
    have hn : (-Int.negSucc m).toNat = m + 1 := by
      rw [Int.neg_negSucc]; rfl
    simp only [Itoa, h, if_true, Int.repr, Nat.repr, List.asString, formatUint_eq_toDigits, hn]
    rfl

theorem labelValues_eq_labelTuple (c : CheckResponse) : labelValues c = labelTuple c := by
  have hp : paused c =
      if c.Status = "paused" then "true" else if c.Paused = true then "true" else "false" := by
    by_cases h : c.Status = "paused" <;> simp [paused, FormatBool, h]
  have ht : tags c = commaSeparated (c.Tags.map (fun tag => tag.Name)) := by
    rw [tags, Join_eq_commaSeparated, tagsRaw_eq]
  simp only [labelValues, labelTuple, id, resolution, Itoa_eq_repr, hp, ht]

theorem dropBits_of_lt (fuel n : Nat) (h : n < 2 ^ 53) : dropBits fuel n = 0 := by
  cases fuel with
  | zero => rfl
  | succ fuel => rw [dropBits, if_pos h]

theorem roundNearestEven_of_le (n : Nat) (h : n ≤ 2 ^ 53) : roundNearestEven n = n := by
  rcases Nat.lt_or_eq_of_le h with hlt | heq
  · simp [roundNearestEven, dropBits_of_lt n n hlt, Nat.mod_one]
  · subst heq; decide

theorem float64_of_abs_le (t : Int) (hlo : -(2 ^ 53) ≤ t) (hhi : t ≤ 2 ^ 53) :
    float64 t = t := by
  unfold float64
  by_cases ht : t < 0
  · rw [if_pos ht, roundNearestEven_of_le _ (by omega)]
    omega
  · rw [if_neg ht, roundNearestEven_of_le _ (by omega)]
    omega

/-! ## Lemmas on the poll loop -/

theorem lastWith_snoc (L : LabelValues) (cs : List CheckResponse) (c : CheckResponse) :
    lastWith L (cs ++ [c]) = if labelTuple c = L then some c else lastWith L cs := by
  by_cases h : labelTuple c = L <;> simp [lastWith, List.find?_cons, h]

theorem recordsWith_snoc (L : LabelValues) (cs : List CheckResponse) (c : CheckResponse) :
    recordsWith L (cs ++ [c]) = recordsWith L cs ++ if labelTuple c = L then [c] else [] := by
  by_cases h : labelTuple c = L <;> simp [recordsWith, List.filter_append, h]

theorem foldl_publishCheck_pingdomUp (checks : List CheckResponse) (s : Store) :
    (checks.foldl publishCheck s).pingdomUp = s.pingdomUp := by
  induction checks using List.reverseRecOn with
  | nil => rfl
  | append_singleton cs c ih => simpa [List.foldl_append, publishCheck] using ih

theorem foldl_publishCheck_status (checks : List CheckResponse) (s : Store)
    (L : LabelValues) :
    (checks.foldl publishCheck s).pingdomCheckStatus L =
      match lastWith L checks with
      | some c => some (status c)
      | none => s.pingdomCheckStatus L := by
  induction checks using List.reverseRecOn with
  | nil => simp [lastWith]
  | append_singleton cs c ih =>
    rw [lastWith_snoc]
    by_cases h : labelTuple c = L
    · simp [List.foldl_append, publishCheck, GaugeVec.Set, labelValues_eq_labelTuple, h]
    · have h2 : ¬ L = labelTuple c := fun e => h e.symm
      simpa [List.foldl_append, publishCheck, GaugeVec.Set, labelValues_eq_labelTuple, h, h2]
        using ih

theorem foldl_publishCheck_responseTime (checks : List CheckResponse) (s : Store)
    (L : LabelValues) :
    (checks.foldl publishCheck s).pingdomCheckResponseTime L =
      match lastWith L checks with
      | some c => some (float64 c.LastResponseTime)
      | none => s.pingdomCheckResponseTime L := by
  induction checks using List.reverseRecOn with
  | nil => simp [lastWith]
  | append_singleton cs c ih =>
    rw [lastWith_snoc]
    by_cases h : labelTuple c = L
    · simp [List.foldl_append, publishCheck, GaugeVec.Set, labelValues_eq_labelTuple, h]
    · have h2 : ¬ L = labelTuple c := fun e => h e.symm
      simpa [List.foldl_append, publishCheck, GaugeVec.Set, labelValues_eq_labelTuple, h, h2]
        using ih

theorem foldl_publishCheck_responseTimeHistogram (checks : List CheckResponse) (s : Store)
    (L : LabelValues) :
    (checks.foldl publishCheck s).pingdomCheckResponseTimeHistogram L =
      s.pingdomCheckResponseTimeHistogram L ++
        (recordsWith L checks).map (fun c => float64 c.LastResponseTime) := by
  induction checks using List.reverseRecOn with
  | nil => simp [recordsWith]
  | append_singleton cs c ih =>
    rw [recordsWith_snoc]
    by_cases h : labelTuple c = L
    · simp [List.foldl_append, publishCheck, HistogramVec.Observe, labelValues_eq_labelTuple,
        h, ih]
    · have h2 : ¬ L = labelTuple c := fun e => h e.symm
      simpa [List.foldl_append, publishCheck, HistogramVec.Observe, labelValues_eq_labelTuple,
        h, h2] using ih

theorem foldl_publishCheck_statusHistogram (checks : List CheckResponse) (s : Store)
    (L : LabelValues) :
    (checks.foldl publishCheck s).pingdomCheckStatusHistogram L =
      s.pingdomCheckStatusHistogram L ++ (recordsWith L checks).map up_down := by
  induction checks using List.reverseRecOn with
  | nil => simp [recordsWith]
  | append_singleton cs c ih =>
    rw [recordsWith_snoc]
    by_cases h : labelTuple c = L
    · simp [List.foldl_append, publishCheck, HistogramVec.Observe, labelValues_eq_labelTuple,
        h, ih]
    · have h2 : ¬ L = labelTuple c := fun e => h e.symm
      simpa [List.foldl_append, publishCheck, HistogramVec.Observe, labelValues_eq_labelTuple,
        h, h2] using ih

theorem pollCycle_ok (s : Store) (checks : List CheckResponse) :
    pollCycle s ⟨checks, none⟩ = checks.foldl publishCheck { s with pingdomUp := 1 } := rfl

theorem pollCycle_pingdomUp (s : Store) (r : ListResult) :
    (pollCycle s r).pingdomUp = if r.err = none then 1 else 0 := by
  obtain ⟨checks, err⟩ := r
  cases err with
  | none => simp [pollCycle, foldl_publishCheck_pingdomUp]
  | some e => simp [pollCycle]

theorem labelValues_ne_of_ID_ne (c₁ c₂ : CheckResponse) (h : c₁.ID ≠ c₂.ID) :
    labelValues c₁ ≠ labelValues c₂ := by
  intro e
  have : Itoa c₁.ID = Itoa c₂.ID := congrArg LabelValues.id e
  exact h (Itoa_injective this)

theorem lastWith_of_distinct_ID (checks : List CheckResponse)
    (hd : (checks.map (fun c => c.ID)).Nodup) (c : CheckResponse) (hc : c ∈ checks) :
    lastWith (labelValues c) checks = some c := by
  unfold lastWith
  simp only [← labelValues_eq_labelTuple]
  cases hf : checks.reverse.find? (fun d => decide (labelValues d = labelValues c)) with
  | none =>
    rw [List.find?_eq_none] at hf
    exact absurd (hf c (by simpa using hc)) (by simp)
  | some d =>
    have hp := List.find?_some hf
    have hm := List.mem_of_find?_eq_some hf
    simp only [decide_eq_true_eq] at hp
    have hid : d.ID = c.ID := by
      by_contra hne
      exact labelValues_ne_of_ID_ne d c hne hp
    rw [List.mem_reverse] at hm
    exact congrArg some (List.inj_on_of_nodup_map hd hm hc hid)

theorem commaSeparated_data (names : List String) :
    (commaSeparated names).data = List.intercalate [','] (names.map String.data) := by
  match names with
  | [] => rfl
  | [a] => simp [commaSeparated, List.intercalate]
  | a :: b :: rest =>
    have ih := commaSeparated_data (b :: rest)
    simp only [commaSeparated, String.data_append, ih]
    simp [List.intercalate, List.intersperse]

/-! ## The claims -/

/-- C1: the status code computed in the poll loop is -2 for the raw status
"unknown", -1 for "paused", 0 for "up", 1 for "unconfirmed_down", 2 for "down"
and 100 for every other raw status string. -/
theorem status_mapping (check : CheckResponse) :
    (check.Status = "unknown" → status check = -2) ∧
    (check.Status = "paused" → status check = -1) ∧
    (check.Status = "up" → status check = 0) ∧
    (check.Status = "unconfirmed_down" → status check = 1) ∧
    (check.Status = "down" → status check = 2) ∧
    (check.Status ∉ ["unknown", "paused", "up", "unconfirmed_down", "down"] →
      status check = 100) := by
  refine ⟨?_, ?_, ?_, ?_, ?_, ?_⟩
  · intro h; simp [status, h]
  · intro h; simp [status, h]
  · intro h; simp [status, h]
  · intro h; simp [status, h]
  · intro h; simp [status, h]
  · intro h
    simp only [List.mem_cons, List.mem_singleton, List.not_mem_nil, or_false, not_or] at h
    simp [status, h]

/-- Witness of C1 at the raw statuses "down", "unknown", the empty string, "UP"
and " up". -/
theorem status_mapping_witness :
    status check42 = 2 ∧
    status { check42 with Status := "unknown" } = -2 ∧
    status { check42 with Status := "" } = 100 ∧
    status { check42 with Status := "UP" } = 100 ∧
    status { check42 with Status := " up" } = 100 :=
  ⟨(status_mapping check42).2.2.2.2.1 (by decide),
   (status_mapping { check42 with Status := "unknown" }).1 (by decide),
   (status_mapping { check42 with Status := "" }).2.2.2.2.2 (by decide),
   (status_mapping { check42 with Status := "UP" }).2.2.2.2.2 (by decide),
   (status_mapping { check42 with Status := " up" }).2.2.2.2.2 (by decide)⟩

/-- C2: the up/down value observed into the status histogram is 1 when the
computed status code is below 1 and 0 when it is at least 1; "unconfirmed_down"
gives status code 1 and up/down 0, "unknown" gives status code -2 and
up/down 1. -/
theorem up_down_of_status (check : CheckResponse) :
    (status check < 1 → up_down check = 1) ∧
    (1 ≤ status check → up_down check = 0) ∧
    status { check with Status := "unconfirmed_down" } = 1 ∧
    up_down { check with Status := "unconfirmed_down" } = 0 ∧
    status { check with Status := "unknown" } = -2 ∧
    up_down { check with Status := "unknown" } = 1 := by
  refine ⟨?_, ?_, ?_, ?_, ?_, ?_⟩
  · intro h; simp [up_down, h]
  · intro h; simp [up_down, not_lt.mpr h]
  · simp [status]
  · simp [up_down, status]
  · simp [status]
  · simp [up_down, status]

/-- Witness of C2 at the raw statuses "up" (code 0) and "down" (code 2). -/
theorem up_down_of_status_witness :
    up_down { check42 with Status := "up" } = 1 ∧ up_down check42 = 0 :=
  ⟨(up_down_of_status { check42 with Status := "up" }).1 (by decide),
   (up_down_of_status check42).2.1 (by decide)⟩

/-- C3: when the raw status is "paused" the paused label is "true" whatever the
paused flag is; otherwise the label is "true" if the flag is set and "false" if
it is not. -/
theorem paused_label (check : CheckResponse) :
    (check.Status = "paused" → paused check = "true") ∧
    (check.Status ≠ "paused" →
      paused check = if check.Paused = true then "true" else "false") ∧
    paused { check with Paused := false, Status := "paused" } = "true" := by
  refine ⟨?_, ?_, ?_⟩
  · intro h; simp [paused, h]
  · intro h; simp [paused, h, FormatBool]
  · simp [paused]

/-- Witness of C3: a paused status with the flag unset, and a status "down"
with the flag unset and set. -/
theorem paused_label_witness :
    paused { check42 with Status := "paused" } = "true" ∧
    paused check42 = "false" ∧
    paused { check42 with Paused := true } = "true" :=
  ⟨(paused_label { check42 with Status := "paused" }).1 (by decide),
   (paused_label check42).2.1 (by decide),
   (paused_label { check42 with Paused := true }).2.1 (by decide)⟩

/-- C4: the tags label is the tag names in their input order with a single ","
between consecutive names and nothing else (also on the level of characters):
nothing is sorted, removed or escaped; tags a, b give "a,b" and no tags give the
empty string. -/
theorem tags_label (check : CheckResponse) :
    tags check = commaSeparated (check.Tags.map (fun tag => tag.Name)) ∧
    (tags check).data =
      List.intercalate [','] (check.Tags.map (fun tag => tag.Name.data)) ∧
    tags { check with Tags := [⟨"a"⟩, ⟨"b"⟩] } = "a,b" ∧
    tags { check with Tags := [] } = "" ∧
    tags { check with Tags := [⟨"b"⟩, ⟨"a"⟩] } = "b,a" ∧
    tags { check with Tags := [⟨"a"⟩, ⟨"a"⟩] } = "a,a" ∧
    tags { check with Tags := [⟨"a,b"⟩, ⟨"c"⟩] } = "a,b,c" := by
  have h : tags check = commaSeparated (check.Tags.map (fun tag => tag.Name)) := by
    rw [tags, Join_eq_commaSeparated, tagsRaw_eq]
  refine ⟨h, ?_, rfl, rfl, rfl, rfl, rfl⟩
  rw [h, commaSeparated_data, List.map_map]
  rfl

/-- C5 as stated fails: for the single record `checkSlow`, whose last response
time is 2^53 + 1 = 9007199254740993, the response-time gauge under its label
tuple holds 9007199254740992 after the cycle, not the last response time. -/
theorem responseTime_gauge_rounded :
    lastWith labels42 [checkSlow] = some checkSlow ∧
    checkSlow.LastResponseTime = 9007199254740993 ∧
    (pollCycle Store.init ⟨[checkSlow], none⟩).pingdomCheckResponseTime labels42 =
      some 9007199254740992 ∧
    (pollCycle Store.init ⟨[checkSlow], none⟩).pingdomCheckResponseTime labels42 ≠
      some checkSlow.LastResponseTime := by
  decide

/-- C5, amended: after a successful poll cycle the status gauge and the
response-time gauge at a label tuple L hold the status code and the `float64`
conversion of the last response time of the last record of the list whose label
tuple (id as decimal string, name, hostname, resolution as decimal string,
paused label, joined tags) is L, and keep what they held before (a value or
nothing) when the list has no such record.  The conversion returns the response
time itself whenever it lies between -2^53 and 2^53; the check of the
end-to-end example gives status 2 and response time 733 under its labels. -/
theorem pollCycle_gauges_float64 (s : Store) (checks : List CheckResponse)
    (L : LabelValues) :
    ((pollCycle s ⟨checks, none⟩).pingdomCheckStatus L =
      match lastWith L checks with
      | some c => some (status c)
      | none => s.pingdomCheckStatus L) ∧
    ((pollCycle s ⟨checks, none⟩).pingdomCheckResponseTime L =
      match lastWith L checks with
      | some c => some (float64 c.LastResponseTime)
      | none => s.pingdomCheckResponseTime L) ∧
    (∀ t : Int, -(2 ^ 53) ≤ t → t ≤ 2 ^ 53 → float64 t = t) ∧
    labelTuple check42 = labels42 ∧
    (pollCycle s ⟨[check42], none⟩).pingdomCheckStatus labels42 = some 2 ∧
    (pollCycle s ⟨[check42], none⟩).pingdomCheckResponseTime labels42 = some 733 := by
  refine ⟨?_, ?_, float64_of_abs_le, by decide, ?_, ?_⟩
  · rw [pollCycle_ok, foldl_publishCheck_status]
  · rw [pollCycle_ok, foldl_publishCheck_responseTime]
  · rw [pollCycle_ok, foldl_publishCheck_status]; rfl
  · rw [pollCycle_ok, foldl_publishCheck_responseTime]; rfl

/-- Witness of C5: the response time 733 lies in the exact range, and two
records with the label tuple of the example leave the values of the later
one. -/
theorem pollCycle_gauges_float64_witness :
    -(2 ^ 53) ≤ (733 : Int) ∧ (733 : Int) ≤ 2 ^ 53 ∧ float64 733 = 733 ∧
    (pollCycle Store.init ⟨[checkSlow, check42], none⟩).pingdomCheckResponseTime labels42 =
      some 733 :=
  ⟨by decide, by decide,
   (pollCycle_gauges_float64 Store.init [check42] labels42).2.2.1 733 (by decide) (by decide),
   (pollCycle_gauges_float64 Store.init [checkSlow, check42] labels42).2.1.trans (by decide)⟩

/-- C6: a poll cycle whose fetch returns an error leaves the status gauge, the
response-time gauge, the response-time histogram and the up/down histogram as
they were under every label tuple, and sets the liveness gauge to 0. -/
theorem pollCycle_error (s : Store) (checks : List CheckResponse) (e : String) :
    (pollCycle s ⟨checks, some e⟩).pingdomCheckStatus = s.pingdomCheckStatus ∧
    (pollCycle s ⟨checks, some e⟩).pingdomCheckResponseTime = s.pingdomCheckResponseTime ∧
    (pollCycle s ⟨checks, some e⟩).pingdomCheckResponseTimeHistogram =
      s.pingdomCheckResponseTimeHistogram ∧
    (pollCycle s ⟨checks, some e⟩).pingdomCheckStatusHistogram =
      s.pingdomCheckStatusHistogram ∧
    (pollCycle s ⟨checks, some e⟩).pingdomUp = 0 :=
  ⟨rfl, rfl, rfl, rfl, rfl⟩

/-- C7: after a non-empty sequence of poll cycles started from any store, the
liveness gauge is 1 if the fetch of the last cycle succeeded and 0 if it failed,
whatever the earlier cycles were. -/
theorem pingdomUp_last (s : Store) (rs : List ListResult) (h : rs ≠ []) :
    (pollCycles s rs).pingdomUp = if (rs.getLast h).err = none then 1 else 0 := by
  induction rs using List.reverseRecOn with
  | nil => exact absurd rfl h
  | append_singleton rs r _ =>
    simp only [pollCycles, List.foldl_append, List.foldl_cons, List.foldl_nil,
      List.getLast_append_singleton]
    exact pollCycle_pingdomUp _ r

/-- Witness of C7: success, failure, success with no checks ends at 1; success,
failure ends at 0. -/
theorem pingdomUp_last_witness :
    threeFetches ≠ [] ∧ (pollCycles Store.init threeFetches).pingdomUp = 1 ∧
    failingLast ≠ [] ∧ (pollCycles Store.init failingLast).pingdomUp = 0 :=
  ⟨List.cons_ne_nil _ _,
   (pingdomUp_last Store.init threeFetches (List.cons_ne_nil _ _)).trans (by decide),
   List.cons_ne_nil _ _,
   (pingdomUp_last Store.init failingLast (List.cons_ne_nil _ _)).trans (by decide)⟩

/-- C8 as stated fails: a record whose raw status is the empty string has
up/down value 0, and its status is neither "unconfirmed_down" nor "down". -/
theorem up_down_zero_not_only_down :
    ¬ (up_down { check42 with Status := "" } = 0 ↔
        ({ check42 with Status := "" } : CheckResponse).Status = "unconfirmed_down" ∨
        ({ check42 with Status := "" } : CheckResponse).Status = "down") := by
  decide

/-- C8, amended: the up/down value is 1 exactly when the raw status is "up",
"paused" or "unknown", and 0 exactly when it is any other string:
"unconfirmed_down", "down" or an unrecognised status. -/
theorem up_down_by_raw_status (check : CheckResponse) :
    (up_down check = 1 ↔ check.Status ∈ ["up", "paused", "unknown"]) ∧
    (up_down check = 0 ↔ check.Status ∉ ["up", "paused", "unknown"]) ∧
    up_down { check with Status := "unconfirmed_down" } = 0 ∧
    up_down { check with Status := "down" } = 0 := by
  have key : up_down check = if check.Status ∈ ["up", "paused", "unknown"] then 1 else 0 := by
    simp only [up_down, status, List.mem_cons, List.mem_singleton, List.not_mem_nil, or_false]
    by_cases h1 : check.Status = "unknown"
    · simp [h1]
    by_cases h2 : check.Status = "paused"
    · simp [h2]
    by_cases h3 : check.Status = "up"
    · simp [h3]
    by_cases h4 : check.Status = "unconfirmed_down"
    · simp [h4]
    by_cases h5 : check.Status = "down"
    · simp [h5]
    simp [h1, h2, h3, h4, h5]
  refine ⟨?_, ?_, by simp [up_down, status], by simp [up_down, status]⟩
  · rw [key]; by_cases h : check.Status ∈ ["up", "paused", "unknown"] <;> simp [h]
  · rw [key]; by_cases h : check.Status ∈ ["up", "paused", "unknown"] <;> simp [h]

/-- C9 as stated fails: for the single record `checkSlowest`, whose last
response time is the largest `int64`, 9223372036854775807, the value observed
into the response-time histogram under its label tuple is 9223372036854775808,
not the last response time. -/
theorem responseTime_histogram_rounded :
    recordsWith labels42 [checkSlowest] = [checkSlowest] ∧
    checkSlowest.LastResponseTime = 9223372036854775807 ∧
    (pollCycle Store.init ⟨[checkSlowest], none⟩).pingdomCheckResponseTimeHistogram labels42 =
      [9223372036854775808] ∧
    (pollCycle Store.init ⟨[checkSlowest], none⟩).pingdomCheckResponseTimeHistogram labels42 ≠
      [checkSlowest.LastResponseTime] := by
  decide

/-- C9, amended: a successful poll cycle appends to the response-time histogram
and to the up/down histogram at a label tuple L one observation for every
record of the list whose label tuple (id as decimal string, name, hostname,
resolution as decimal string, paused label, joined tags) is L, in order: the
`float64` conversion of its last response time, which is the response time
itself whenever it lies between -2^53 and 2^53, and its up/down value.  Earlier
observations are kept, so two successful cycles add the observations of both;
the record with status "down" adds one observation 0. -/
theorem pollCycle_histograms_float64 (s : Store) (checks more : List CheckResponse)
    (L : LabelValues) :
    ((pollCycle s ⟨checks, none⟩).pingdomCheckResponseTimeHistogram L =
      s.pingdomCheckResponseTimeHistogram L ++
        (recordsWith L checks).map (fun c => float64 c.LastResponseTime)) ∧
    ((pollCycle s ⟨checks, none⟩).pingdomCheckStatusHistogram L =
      s.pingdomCheckStatusHistogram L ++ (recordsWith L checks).map up_down) ∧
    ((pollCycle s ⟨checks, none⟩).pingdomCheckResponseTimeHistogram L).length =
      (s.pingdomCheckResponseTimeHistogram L).length +
        checks.countP (fun c => decide (labelTuple c = L)) ∧
    ((pollCycle s ⟨checks, none⟩).pingdomCheckStatusHistogram L).length =
      (s.pingdomCheckStatusHistogram L).length +
        checks.countP (fun c => decide (labelTuple c = L)) ∧
    ((pollCycles s [⟨checks, none⟩, ⟨more, none⟩]).pingdomCheckResponseTimeHistogram L =
      s.pingdomCheckResponseTimeHistogram L ++
        (recordsWith L checks).map (fun c => float64 c.LastResponseTime) ++
        (recordsWith L more).map (fun c => float64 c.LastResponseTime)) ∧
    ((pollCycles s [⟨checks, none⟩, ⟨more, none⟩]).pingdomCheckStatusHistogram L =
      s.pingdomCheckStatusHistogram L ++ (recordsWith L checks).map up_down ++
        (recordsWith L more).map up_down) ∧
    (∀ c : CheckResponse, -(2 ^ 53) ≤ c.LastResponseTime → c.LastResponseTime ≤ 2 ^ 53 →
      float64 c.LastResponseTime = c.LastResponseTime) ∧
    labelTuple check42 = labels42 ∧
    (pollCycle s ⟨[check42], none⟩).pingdomCheckStatusHistogram labels42 =
      s.pingdomCheckStatusHistogram labels42 ++ [0] := by
  have hrt : ∀ (t : Store) (cs : List CheckResponse),
      (pollCycle t ⟨cs, none⟩).pingdomCheckResponseTimeHistogram L =
        t.pingdomCheckResponseTimeHistogram L ++
          (recordsWith L cs).map (fun c => float64 c.LastResponseTime) := fun t cs => by
    rw [pollCycle_ok, foldl_publishCheck_responseTimeHistogram]
  have hst : ∀ (t : Store) (cs : List CheckResponse),
      (pollCycle t ⟨cs, none⟩).pingdomCheckStatusHistogram L =
        t.pingdomCheckStatusHistogram L ++ (recordsWith L cs).map up_down := fun t cs => by
    rw [pollCycle_ok, foldl_publishCheck_statusHistogram]
  refine ⟨hrt s checks, hst s checks, ?_, ?_, ?_, ?_, ?_, by decide, ?_⟩
  · rw [hrt, List.length_append, List.length_map, recordsWith, List.countP_eq_length_filter]
  · rw [hst, List.length_append, List.length_map, recordsWith, List.countP_eq_length_filter]
  · simp only [pollCycles, List.foldl_cons, List.foldl_nil]
    rw [hrt, hrt]
  · simp only [pollCycles, List.foldl_cons, List.foldl_nil]
    rw [hst, hst]
  · exact fun c hlo hhi => float64_of_abs_le c.LastResponseTime hlo hhi
  · rw [pollCycle_ok, foldl_publishCheck_statusHistogram]; rfl

/-- Witness of C9: the two records `check42` and `check7` differ in their id,
so only the first is observed under the labels of the example, with its
response time 733, which lies in the exact range. -/
theorem pollCycle_histograms_float64_witness :
    -(2 ^ 53) ≤ check42.LastResponseTime ∧ check42.LastResponseTime ≤ 2 ^ 53 ∧
    float64 check42.LastResponseTime = 733 ∧
    (pollCycle Store.init ⟨[check42, check7], none⟩).pingdomCheckResponseTimeHistogram
      labels42 = [733] ∧
    (pollCycle Store.init ⟨[check42, check7], none⟩).pingdomCheckStatusHistogram
      labels42 = [0] :=
  ⟨by decide, by decide,
   (pollCycle_histograms_float64 Store.init [] [] labels42).2.2.2.2.2.2.1 check42
      (by decide) (by decide),
   (pollCycle_histograms_float64 Store.init [check42, check7] [] labels42).1.trans (by decide),
   (pollCycle_histograms_float64 Store.init [check42, check7] [] labels42).2.1.trans
      (by decide)⟩

/-- C10: two check records with different ids have different label tuples;
hence in a successful poll cycle over a list with pairwise distinct ids, every
record of the list finds the two values it wrote, its own status code and the
`float64` conversion of its own response time, in the two gauges under its
label tuple afterwards. -/
theorem distinct_ids_not_overwritten (s : Store) (checks : List CheckResponse)
    (hd : (checks.map (fun c => c.ID)).Nodup) (c : CheckResponse) (hc : c ∈ checks) :
    (∀ c₁ c₂ : CheckResponse, c₁.ID ≠ c₂.ID → labelValues c₁ ≠ labelValues c₂) ∧
    (pollCycle s ⟨checks, none⟩).pingdomCheckStatus (labelValues c) = some (status c) ∧
    (pollCycle s ⟨checks, none⟩).pingdomCheckResponseTime (labelValues c) =
      some (float64 c.LastResponseTime) := by
  refine ⟨labelValues_ne_of_ID_ne, ?_, ?_⟩
  · rw [pollCycle_ok, foldl_publishCheck_status, lastWith_of_distinct_ID checks hd c hc]
  · rw [pollCycle_ok, foldl_publishCheck_responseTime, lastWith_of_distinct_ID checks hd c hc]

/-- Witness of C10: two checks with ids 42 and 7 that agree on every label but
the id; the first one keeps status 2 and response time 733. -/
theorem distinct_ids_not_overwritten_witness :
    ([check42, check7].map (fun c => c.ID)).Nodup ∧ check42 ∈ [check42, check7] ∧
    labelValues check42 ≠ labelValues check7 ∧
    (pollCycle Store.init ⟨[check42, check7], none⟩).pingdomCheckStatus
      (labelValues check42) = some 2 ∧
    (pollCycle Store.init ⟨[check42, check7], none⟩).pingdomCheckResponseTime
      (labelValues check42) = some 733 :=
  ⟨by decide, by decide,
   (distinct_ids_not_overwritten Store.init [check42, check7] (by decide) check42
      (by decide)).1 check42 check7 (by decide),
   (distinct_ids_not_overwritten Store.init [check42, check7] (by decide) check42
      (by decide)).2.1,
   (distinct_ids_not_overwritten Store.init [check42, check7] (by decide) check42
      (by decide)).2.2.trans (by decide)⟩

end cmd
